import Mathlib

/-!
Verification of the appointment-booking core (`BookingAgent` in
`Agentic ai/task 5.py`) against its natural-language specification.

The embedding is a direct translation of the Python source:

* A `datetime` is modelled as a `Nat` counting minutes since an epoch whose
  day 0 is a Monday, so that Python's `weekday()` (Monday = 0) becomes
  `t / 1440 % 7`.  All datetimes the code manipulates lie on whole minutes
  (slots are generated with seconds and microseconds zeroed), so minute
  granularity is faithful.  The injected "current time" snapshot `now`
  replaces every call to `datetime.now()`, as the spec prescribes for
  deterministic testing.
* `str.lower()` and the `in` substring test of Python are modelled on the
  underlying character lists (`pyLower`, `containsStr`), because they must
  evaluate inside the kernel.
* The Python `dict` of appointments is an insertion-ordered association
  list; assignment is `dictInsert` (update in place if the key exists,
  append otherwise), and `.values()` iterates in insertion order.
* The only exception the booking core can raise is the `KeyError` of
  `self.services[service]` on an unknown service; fallible operations
  therefore return `Except (PyExn × AgentState) _`, the error carrying the
  state as mutated up to the raise (the id counter increments before the
  lookup in `create_appointment`).
* The date strings produced by `strftime("%Y-%m-%d")` are in bijection
  with calendar days, so a date preference is modelled as the day number
  `t / 1440`.
* Python's `sorted` is a stable sort; on lists of natural numbers any
  correct sort produces the same output, and it is modelled by
  `List.insertionSort (· ≤ ·)`.
-/

/-- Day index (the `%Y-%m-%d` date) of an instant measured in minutes. -/
def dayOf (t : Nat) : Nat := t / 1440

/-- Minute of the day of an instant, in `[0, 1440)`. -/
def minuteOfDay (t : Nat) : Nat := t % 1440

/-- Python `datetime.weekday()`: Monday is 0, Sunday is 6 (epoch day 0 is a Monday). -/
def weekday (t : Nat) : Nat := dayOf t % 7

/-- Python `str.lower()`, at character-list level. -/
def pyLower (s : String) : String := String.mk (s.data.map Char.toLower)

/-- Auxiliary for the Python substring test: does `needle` occur in `hay`? -/
def substrAux : List Char → List Char → Bool
  | needle, [] => needle.isEmpty
  | needle, c :: rest => needle.isPrefixOf (c :: rest) || substrAux needle rest

/-- Python `needle in hay` on strings (substring containment). -/
def containsStr (hay needle : String) : Bool := substrAux needle.data hay.data

/-- Auxiliary for Python `str.split()`: split into maximal runs of non-space
characters, accumulating the current (reversed) word. -/
def pySplitAux : List Char → List Char → List String
  | acc, [] => if acc.isEmpty then [] else [String.mk acc.reverse]
  | acc, c :: rest =>
    if c = ' ' then
      if acc.isEmpty then pySplitAux [] rest
      else String.mk acc.reverse :: pySplitAux [] rest
    else pySplitAux (c :: acc) rest

/-- Python `str.split()` with no argument: words separated by whitespace runs
(the source only splits service names, which contain no other whitespace). -/
def pySplit (s : String) : List String := pySplitAux [] s.data

/-- Python `f"{n:04d}"`: decimal rendering zero-padded to width 4. -/
def padZero4 (n : Nat) : String :=
  let s := toString n
  String.mk (List.replicate (4 - s.length) '0') ++ s

/-- The `BookingStatus` enum of the source. -/
inductive BookingStatus where
  | pending
  | confirmed
  | cancelled
  | completed
deriving DecidableEq, Repr

/-- The `Appointment` class of the source (times in minutes, see module comment). -/
structure Appointment where
  appointment_id : String
  user_id : String
  service : String
  scheduled_time : Nat
  duration : Nat
  status : BookingStatus
  created_at : Nat
  confirmed_at : Option Nat
deriving DecidableEq, Repr

/-- Model of `Appointment.confirm`: set status to confirmed and record the confirmation time. -/
def Appointment.confirm (now : Nat) (a : Appointment) : Appointment :=
  { a with status := BookingStatus.confirmed, confirmed_at := some now }

/-- One record of the `self.services` catalog. -/
structure Service where
  duration : Nat
  price : Nat
  type : String
deriving DecidableEq, Repr

/-- The `self.services` dict of `BookingAgent.__init__`, in declaration order. -/
def services : List (String × Service) :=
  [("doctor", { duration := 30, price := 100, type := "medical" }),
   ("dentist", { duration := 45, price := 150, type := "medical" }),
   ("therapy", { duration := 60, price := 120, type := "wellness" }),
   ("consultation", { duration := 30, price := 80, type := "professional" }),
   ("massage", { duration := 60, price := 90, type := "wellness" }),
   ("checkup", { duration := 20, price := 60, type := "medical" })]

/-- Keys of the catalog, in order (`list(self.services.keys())`). -/
def service_names : List String := services.map Prod.fst

/-- The intent dict built by `parse_booking_intent`; a date preference is a day number. -/
structure BookingIntent where
  service : Option String
  preferred_time : Option String
  date_preference : Option Nat
  urgency : String
  certainty : String
  user_sentiment : String
deriving DecidableEq, Repr

/-- The mutable state of a `BookingAgent` (the catalog is the constant `services`). -/
structure AgentState where
  appointments : List (String × Appointment)
  available_slots : List Nat
  next_appointment_id : Nat
deriving DecidableEq, Repr

/-- The one Python exception the booking core can raise: `KeyError` on `self.services[...]`. -/
inductive PyExn where
  | keyError (key : String)
deriving DecidableEq, Repr

/-- Inner loops of `_generate_weekly_slots`: the slots of one day
(`for hour in range(9, 17): for minute in [0, 30]: ... if slot_time > now + 1h`). -/
def day_slots (now current_date : Nat) : List Nat :=
  (List.range' 9 8).flatMap (fun hour =>
    ([0, 30] : List Nat).filterMap (fun minute =>
      let slot_time := dayOf current_date * 1440 + hour * 60 + minute
      if now + 60 < slot_time then some slot_time else none))

/-- The `slots` list built by the day loop of `_generate_weekly_slots`
(`start_date` is `now.replace(hour=9, minute=0, second=0, microsecond=0)`;
weekend days are skipped by the `continue`). -/
def raw_weekly_slots (now : Nat) : List Nat :=
  (List.range 7).flatMap (fun day =>
    let current_date := (dayOf now * 1440 + 9 * 60) + day * 1440
    if 5 ≤ weekday current_date then [] else day_slots now current_date)

/-- Model of `BookingAgent._generate_weekly_slots`, with `now` the injected clock snapshot. -/
def generate_weekly_slots (now : Nat) : List Nat :=
  List.insertionSort (· ≤ ·) (raw_weekly_slots now)

/-- Model of `BookingAgent._next_weekday`: the day number of the next future occurrence of
weekday `wd` (if today has that weekday, skip to next week). -/
def next_weekday (now : Nat) (wd : Nat) : Nat :=
  let days_ahead := if weekday now < wd then wd - weekday now else wd + 7 - weekday now
  dayOf now + days_ahead

/-- The `time_patterns` table of `parse_booking_intent`, in declaration order. -/
def time_patterns : List (String × String) :=
  [("morning", "09:00-12:00"),
   ("afternoon", "12:00-17:00"),
   ("evening", "17:00-20:00"),
   ("lunch", "12:00-13:00")]

/-- The `date_patterns` table of `parse_booking_intent`, in declaration order. -/
def date_patterns (now : Nat) : List (String × Nat) :=
  [("tomorrow", dayOf (now + 1440)),
   ("monday", next_weekday now 0),
   ("tuesday", next_weekday now 1),
   ("wednesday", next_weekday now 2),
   ("thursday", next_weekday now 3),
   ("friday", next_weekday now 4),
   ("next week", dayOf (now + 7 * 1440))]

/-- The `urgency_indicators` word list of the source. -/
def urgency_indicators : List String := ["urgent", "asap", "emergency", "quick", "soon"]

/-- The `positive_indicators` word list of the source. -/
def positive_indicators : List String := ["please", "thank", "appreciate", "would like"]

/-- One iteration of the time-pattern loop (last match in table order wins). -/
def apply_time_pattern (message_lower : String) (i : BookingIntent) (pt : String × String) :
    BookingIntent :=
  if containsStr message_lower pt.1 then { i with preferred_time := some pt.2 } else i

/-- One iteration of the date-pattern loop (last match in table order wins). -/
def apply_date_pattern (message_lower : String) (i : BookingIntent) (pt : String × Nat) :
    BookingIntent :=
  if containsStr message_lower pt.1 then { i with date_preference := some pt.2 } else i

/-- Model of `BookingAgent.parse_booking_intent`, translated statement by statement. -/
def parse_booking_intent (now : Nat) (user_message : String) : BookingIntent :=
  let message_lower := pyLower user_message
  let intent : BookingIntent :=
    { service := none, preferred_time := none, date_preference := none,
      urgency := "normal", certainty := "high", user_sentiment := "neutral" }
  let intent :=
    match services.find? (fun p => containsStr message_lower p.1) with
    | some p => { intent with service := some p.1 }
    | none => intent
  let intent :=
    if intent.service.isNone then
      match services.find? (fun p => (pySplit p.1).any (fun w => containsStr message_lower w)) with
      | some p => { intent with service := some p.1 }
      | none => intent
    else intent
  let intent := time_patterns.foldl (apply_time_pattern message_lower) intent
  let intent := (date_patterns now).foldl (apply_date_pattern message_lower) intent
  let intent :=
    if urgency_indicators.any (fun w => containsStr message_lower w) then
      { intent with urgency := "high" }
    else intent
  let intent :=
    if positive_indicators.any (fun w => containsStr message_lower w) then
      { intent with user_sentiment := "positive" }
    else intent
  intent

/-- Model of `BookingAgent._is_slot_booked`: some stored appointment has this exact
slot and a status other than cancelled. -/
def is_slot_booked (st : AgentState) (slot : Nat) : Bool :=
  st.appointments.any (fun p =>
    p.2.scheduled_time == slot && p.2.status != BookingStatus.cancelled)

/-- Date filter of `find_available_slots` (`slot_date == date_preference` when present). -/
def dateMatches (date_preference : Option Nat) (slot : Nat) : Bool :=
  match date_preference with
  | some d => dayOf slot == d
  | none => true

/-- The `available` list built by the loop of `find_available_slots`, before
sorting and truncation: cached free slots that are unbooked and match the
date preference. -/
def candidate_slots (st : AgentState) (date_preference : Option Nat) : List Nat :=
  st.available_slots.filter (fun slot =>
    !is_slot_booked st slot && dateMatches date_preference slot)

/-- Model of `BookingAgent.find_available_slots`: empty for a service outside the
catalog, otherwise the first 6 of the sorted candidate slots. -/
def find_available_slots (st : AgentState) (service : String)
    (date_preference : Option Nat) : List Nat :=
  match services.lookup service with
  | none => []
  | some _ => (List.insertionSort (· ≤ ·) (candidate_slots st date_preference)).take 6

/-- Python dict assignment `d[k] = v` on an insertion-ordered association list:
replace in place if the key is present, append otherwise. -/
def dictInsert (k : String) (v : Appointment) :
    List (String × Appointment) → List (String × Appointment)
  | [] => [(k, v)]
  | p :: rest => if p.1 = k then (k, v) :: rest else p :: dictInsert k v rest

/-- Model of `BookingAgent._remove_slot`: prune a slot from the cached free list. -/
def remove_slot (st : AgentState) (slot : Nat) : AgentState :=
  { st with available_slots := st.available_slots.filter (fun s => !(s == slot)) }

/-- Model of `BookingAgent.create_appointment`.  The id counter increments before the
catalog subscript, so the `KeyError` of an unknown service escapes with the
counter already bumped and nothing stored. -/
def create_appointment (now : Nat) (st : AgentState) (user_id service : String)
    (slot : Nat) : Except (PyExn × AgentState) (Appointment × AgentState) :=
  let appointment_id := "apt_" ++ padZero4 st.next_appointment_id
  let st1 : AgentState := { st with next_appointment_id := st.next_appointment_id + 1 }
  match services.lookup service with
  | none => Except.error (PyExn.keyError service, st1)
  | some info =>
    let appointment : Appointment :=
      { appointment_id := appointment_id, user_id := user_id, service := service,
        scheduled_time := slot, duration := info.duration,
        status := BookingStatus.pending, created_at := now, confirmed_at := none }
    let appointment := appointment.confirm now
    let st2 : AgentState :=
      { st1 with appointments := dictInsert appointment_id appointment st1.appointments }
    Except.ok (appointment, remove_slot st2 slot)

/-- The three response dicts `process_booking_request` can return, keyed by
their `status` field; display-only formatting of the source is out of scope
(spec section 6), the structured payload is kept. -/
inductive BookingResponse where
  | clarification_needed (message : String) (available_services suggestions : List String)
  | no_slots (message suggestion : String) (alternative_services : List String)
  | success (appointment : Appointment) (price : Nat) (service_type : String)
deriving DecidableEq, Repr

/-- The `status` string of a response (or `"error"` for an escaped exception). -/
def statusOf : Except (PyExn × AgentState) (BookingResponse × AgentState) → String
  | Except.error _ => "error"
  | Except.ok (BookingResponse.clarification_needed _ _ _, _) => "clarification_needed"
  | Except.ok (BookingResponse.no_slots _ _ _, _) => "no_slots"
  | Except.ok (BookingResponse.success _ _ _, _) => "success"

/-- Model of `BookingAgent.process_booking_request`: parse, search, create, respond. -/
def process_booking_request (now : Nat) (st : AgentState) (user_id user_message : String) :
    Except (PyExn × AgentState) (BookingResponse × AgentState) :=
  let intent := parse_booking_intent now user_message
  match intent.service with
  | none =>
    Except.ok (BookingResponse.clarification_needed
      "I understand you want to book an appointment. Which service are you interested in?"
      service_names
      ["doctor", "dentist", "therapy", "massage", "consultation"], st)
  | some svc =>
    let available := find_available_slots st svc intent.date_preference
    match available with
    | [] =>
      Except.ok (BookingResponse.no_slots
        ("Sorry, no available slots found for " ++ svc ++ " appointments.")
        "Please try a different date or service type."
        (service_names.filter (fun s => !(s == svc))), st)
    | selected_slot :: _ =>
      match create_appointment now st user_id svc selected_slot with
      | Except.error e => Except.error e
      | Except.ok (appointment, st1) =>
        match services.lookup svc with
        | none => Except.error (PyExn.keyError svc, st1)
        | some info =>
          Except.ok (BookingResponse.success appointment info.price info.type, st1)

/-- Model of `BookingAgent.__init__`: fresh agent at clock snapshot `now`. -/
def BookingAgent.mkInit (now : Nat) : AgentState :=
  { appointments := [], available_slots := generate_weekly_slots now,
    next_appointment_id := 1 }

/-- States reachable from a fresh agent through the public booking operation
`process_booking_request` alone (both normal returns and escaped exceptions). -/
inductive Reachable (now : Nat) : AgentState → Prop where
  | start : Reachable now (BookingAgent.mkInit now)
  | step_ok (st st' : AgentState) (u msg : String) (r : BookingResponse) :
      Reachable now st →
      process_booking_request now st u msg = Except.ok (r, st') →
      Reachable now st'
  | step_exn (st st' : AgentState) (u msg : String) (e : PyExn) :
      Reachable now st →
      process_booking_request now st u msg = Except.error (e, st') →
      Reachable now st'

/-- Relation between two stored appointments: if both are non-cancelled they
occupy different slots. -/
def PairOk (p q : String × Appointment) : Prop :=
  p.2.status ≠ BookingStatus.cancelled → q.2.status ≠ BookingStatus.cancelled →
    p.2.scheduled_time ≠ q.2.scheduled_time

/-- One booking per slot: distinct stored appointments that are both
non-cancelled never share their exact scheduled time. -/
def NoDoubleBooking (st : AgentState) : Prop :=
  st.appointments.Pairwise PairOk

/-! ### String lemmas -/

theorem substrAux_iff (n : List Char) (h : List Char) : substrAux n h = true ↔ n <:+: h := by
  induction h with
  | nil => simp [substrAux, List.isEmpty_iff]
  | cons c rest ih =>
    simp [substrAux, List.infix_cons_iff, ih, List.isPrefixOf_iff_prefix, or_comm]

theorem containsStr_iff (hay needle : String) :
    containsStr hay needle = true ↔ needle.data <:+: hay.data := by
  exact substrAux_iff needle.data hay.data

/-! ### Projection lemmas for the parser pipeline -/

theorem foldl_time_service (ml : String) (l : List (String × String)) (i : BookingIntent) :
    (l.foldl (apply_time_pattern ml) i).service = i.service := by
  induction l generalizing i with
  | nil => rfl
  | cons p t ih =>
    simp only [List.foldl_cons, ih]
    unfold apply_time_pattern
    split <;> rfl

theorem foldl_time_urgency (ml : String) (l : List (String × String)) (i : BookingIntent) :
    (l.foldl (apply_time_pattern ml) i).urgency = i.urgency := by
  induction l generalizing i with
  | nil => rfl
  | cons p t ih =>
    simp only [List.foldl_cons, ih]
    unfold apply_time_pattern
    split <;> rfl

theorem foldl_time_sentiment (ml : String) (l : List (String × String)) (i : BookingIntent) :
    (l.foldl (apply_time_pattern ml) i).user_sentiment = i.user_sentiment := by
  induction l generalizing i with
  | nil => rfl
  | cons p t ih =>
    simp only [List.foldl_cons, ih]
    unfold apply_time_pattern
    split <;> rfl

theorem foldl_date_service (ml : String) (l : List (String × Nat)) (i : BookingIntent) :
    (l.foldl (apply_date_pattern ml) i).service = i.service := by
  induction l generalizing i with
  | nil => rfl
  | cons p t ih =>
    simp only [List.foldl_cons, ih]
    unfold apply_date_pattern
    split <;> rfl

theorem foldl_date_urgency (ml : String) (l : List (String × Nat)) (i : BookingIntent) :
    (l.foldl (apply_date_pattern ml) i).urgency = i.urgency := by
  induction l generalizing i with
  | nil => rfl
  | cons p t ih =>
    simp only [List.foldl_cons, ih]
    unfold apply_date_pattern
    split <;> rfl

theorem foldl_date_sentiment (ml : String) (l : List (String × Nat)) (i : BookingIntent) :
    (l.foldl (apply_date_pattern ml) i).user_sentiment = i.user_sentiment := by
  induction l generalizing i with
  | nil => rfl
  | cons p t ih =>
    simp only [List.foldl_cons, ih]
    unfold apply_date_pattern
    split <;> rfl

theorem foldl_time_nomatch (ml : String) (l : List (String × String)) (i : BookingIntent)
    (h : ∀ p ∈ l, containsStr ml p.1 = false) : l.foldl (apply_time_pattern ml) i = i := by
  induction l generalizing i with
  | nil => rfl
  | cons p t ih =>
    simp only [List.foldl_cons]
    rw [show apply_time_pattern ml i p = i by
      unfold apply_time_pattern
      rw [h p (by simp)]
      rfl]
    exact ih i (fun q hq => h q (by simp [hq]))

theorem foldl_date_nomatch (ml : String) (l : List (String × Nat)) (i : BookingIntent)
    (h : ∀ p ∈ l, containsStr ml p.1 = false) : l.foldl (apply_date_pattern ml) i = i := by
  induction l generalizing i with
  | nil => rfl
  | cons p t ih =>
    simp only [List.foldl_cons]
    rw [show apply_date_pattern ml i p = i by
      unfold apply_date_pattern
      rw [h p (by simp)]
      rfl]
    exact ih i (fun q hq => h q (by simp [hq]))

/-- The service field of a parsed intent: the first exact-substring catalog
match, else the first word-level catalog match, else none. -/
theorem parse_service_eq (now : Nat) (msg : String) :
    (parse_booking_intent now msg).service =
      match services.find? (fun p => containsStr (pyLower msg) p.1) with
      | some p => some p.1
      | none =>
        match services.find?
            (fun p => (pySplit p.1).any (fun w => containsStr (pyLower msg) w)) with
        | some p => some p.1
        | none => none := by
  unfold parse_booking_intent
  cases hf : services.find? (fun p => containsStr (pyLower msg) p.1) with
  | some p =>
    simp only [hf]
    split <;> split <;> simp_all [foldl_date_service, foldl_time_service]
  | none =>
    cases hg : services.find?
        (fun p => (pySplit p.1).any (fun w => containsStr (pyLower msg) w)) with
    | some p =>
      simp only [hf, hg]
      split <;> split <;> simp_all [foldl_date_service, foldl_time_service]
    | none =>
      simp only [hf, hg]
      split <;> split <;> simp_all [foldl_date_service, foldl_time_service]

/-- The urgency field of a parsed intent is driven solely by the urgency word list. -/
theorem parse_urgency_eq (now : Nat) (msg : String) :
    (parse_booking_intent now msg).urgency =
      if urgency_indicators.any (fun w => containsStr (pyLower msg) w) then "high"
      else "normal" := by
  unfold parse_booking_intent
  cases hf : services.find? (fun p => containsStr (pyLower msg) p.1) with
  | some p =>
    simp only [hf]
    split <;> split <;> simp_all [foldl_date_urgency, foldl_time_urgency]
  | none =>
    cases hg : services.find?
        (fun p => (pySplit p.1).any (fun w => containsStr (pyLower msg) w)) with
    | some p =>
      simp only [hf, hg]
      split <;> split <;> simp_all [foldl_date_urgency, foldl_time_urgency]
    | none =>
      simp only [hf, hg]
      split <;> split <;> simp_all [foldl_date_urgency, foldl_time_urgency]

/-- The sentiment field of a parsed intent is driven solely by the politeness word list. -/
theorem parse_sentiment_eq (now : Nat) (msg : String) :
    (parse_booking_intent now msg).user_sentiment =
      if positive_indicators.any (fun w => containsStr (pyLower msg) w) then "positive"
      else "neutral" := by
  unfold parse_booking_intent
  cases hf : services.find? (fun p => containsStr (pyLower msg) p.1) with
  | some p =>
    simp only [hf]
    split <;> split <;> simp_all [foldl_date_sentiment, foldl_time_sentiment]
  | none =>
    cases hg : services.find?
        (fun p => (pySplit p.1).any (fun w => containsStr (pyLower msg) w)) with
    | some p =>
      simp only [hf, hg]
      split <;> split <;> simp_all [foldl_date_sentiment, foldl_time_sentiment]
    | none =>
      simp only [hf, hg]
      split <;> split <;> simp_all [foldl_date_sentiment, foldl_time_sentiment]

/-! ### Ledger lemmas -/

theorem lookup_isSome_of_mem {α β : Type} [BEq α] [LawfulBEq α] {l : List (α × β)}
    {p : α × β} (hp : p ∈ l) : ∃ v, l.lookup p.1 = some v := by
  induction l with
  | nil => cases hp
  | cons q t ih =>
    rcases List.mem_cons.1 hp with rfl | hm
    · exact ⟨p.2, by simp [List.lookup]⟩
    · by_cases h : p.1 = q.1
      · exact ⟨q.2, by simp [List.lookup, h]⟩
      · obtain ⟨v, hv⟩ := ih hm
        exact ⟨v, by simp [List.lookup, beq_eq_false_iff_ne.mpr h, hv]⟩

/-- A service name produced by the parser is always a catalog key. -/
theorem parse_service_lookup (now : Nat) (msg : String) (svc : String)
    (h : (parse_booking_intent now msg).service = some svc) :
    ∃ info, services.lookup svc = some info := by
  rw [parse_service_eq] at h
  cases hf : services.find? (fun p => containsStr (pyLower msg) p.1) with
  | some p =>
    rw [hf] at h
    obtain rfl : p.1 = svc := by simpa using h
    exact lookup_isSome_of_mem (List.mem_of_find?_eq_some hf)
  | none =>
    rw [hf] at h
    cases hg : services.find?
        (fun p => (pySplit p.1).any (fun w => containsStr (pyLower msg) w)) with
    | some p =>
      rw [hg] at h
      obtain rfl : p.1 = svc := by simpa using h
      exact lookup_isSome_of_mem (List.mem_of_find?_eq_some hg)
    | none => rw [hg] at h; cases h

theorem mem_candidate_slots {st : AgentState} {dp : Option Nat} {s : Nat} :
    s ∈ candidate_slots st dp ↔
      s ∈ st.available_slots ∧ is_slot_booked st s = false ∧ dateMatches dp s = true := by
  unfold candidate_slots
  simp [List.mem_filter, Bool.and_eq_true, and_assoc]

theorem mem_find_available_slots {st : AgentState} {svc : String} {dp : Option Nat} {s : Nat}
    (h : s ∈ find_available_slots st svc dp) : s ∈ candidate_slots st dp := by
  unfold find_available_slots at h
  cases hl : services.lookup svc with
  | none => rw [hl] at h; cases h
  | some info =>
    rw [hl] at h
    have hmem := List.take_subset 6 _ h
    exact ((List.perm_insertionSort (· ≤ ·) (candidate_slots st dp)).mem_iff).1 hmem

theorem is_slot_booked_false_iff {st : AgentState} {slot : Nat} :
    is_slot_booked st slot = false ↔
      ∀ p ∈ st.appointments,
        p.2.status ≠ BookingStatus.cancelled → p.2.scheduled_time ≠ slot := by
  unfold is_slot_booked
  rw [List.any_eq_false]
  constructor
  · intro h p hp hst heq
    have := h p hp
    simp [heq, hst] at this
  · intro h p hp
    simp only [Bool.and_eq_true, beq_iff_eq, bne_iff_ne, not_and]
    intro h1 h2
    exact absurd h1 (h p hp h2)

theorem mem_dictInsert {k : String} {v : Appointment} {l : List (String × Appointment)}
    {q : String × Appointment} (h : q ∈ dictInsert k v l) : q = (k, v) ∨ q ∈ l := by
  induction l with
  | nil => simpa [dictInsert] using h
  | cons p t ih =>
    unfold dictInsert at h
    split at h
    · rcases List.mem_cons.1 h with h' | h'
      · exact Or.inl h'
      · exact Or.inr (List.mem_cons_of_mem _ h')
    · rcases List.mem_cons.1 h with h' | h'
      · exact Or.inr (h' ▸ List.mem_cons_self _ _)
      · rcases ih h' with h'' | h''
        · exact Or.inl h''
        · exact Or.inr (List.mem_cons_of_mem _ h'')

/-- Inserting an appointment whose slot no stored non-cancelled appointment
occupies preserves the one-booking-per-slot property, whether the dict
assignment replaces or appends. -/
theorem dictInsert_pairOk {k : String} {v : Appointment} {l : List (String × Appointment)}
    (hP : l.Pairwise PairOk)
    (hfresh : ∀ p ∈ l, p.2.status ≠ BookingStatus.cancelled →
      p.2.scheduled_time ≠ v.scheduled_time) :
    (dictInsert k v l).Pairwise PairOk := by
  induction l with
  | nil => simp [dictInsert, PairOk]
  | cons p t ih =>
    rw [List.pairwise_cons] at hP
    unfold dictInsert
    split
    · refine List.Pairwise.cons ?_ hP.2
      intro q hq hv hq2
      exact fun heq => hfresh q (List.mem_cons_of_mem _ hq) hq2 heq.symm
    · refine List.Pairwise.cons ?_
        (ih hP.2 (fun q hq => hfresh q (List.mem_cons_of_mem _ hq)))
      intro q hq
      rcases mem_dictInsert hq with rfl | hq'
      · intro hp2 hv2
        exact hfresh p (List.mem_cons_self _ _) hp2
      · exact hP.1 q hq'

theorem create_appointment_ok_inv {now : Nat} {st : AgentState} {u svc : String} {slot : Nat}
    {a : Appointment} {st' : AgentState}
    (h : create_appointment now st u svc slot = Except.ok (a, st')) :
    a.scheduled_time = slot ∧ a.status = BookingStatus.confirmed ∧
      st'.appointments = dictInsert a.appointment_id a st.appointments := by
  unfold create_appointment at h
  cases hl : services.lookup svc with
  | none => rw [hl] at h; cases h
  | some info =>
    rw [hl] at h
    simp only [Except.ok.injEq, Prod.mk.injEq] at h
    obtain ⟨rfl, rfl⟩ := h
    exact ⟨rfl, rfl, rfl⟩

/-- Any normal return of `process_booking_request` either leaves the state
unchanged or is the result of one `create_appointment` on a slot drawn from
`find_available_slots`. -/
theorem process_ok_state {now : Nat} {st : AgentState} {u msg : String}
    {r : BookingResponse} {st' : AgentState}
    (h : process_booking_request now st u msg = Except.ok (r, st')) :
    st' = st ∨
      ∃ svc slot a, (parse_booking_intent now msg).service = some svc ∧
        slot ∈ find_available_slots st svc (parse_booking_intent now msg).date_preference ∧
        create_appointment now st u svc slot = Except.ok (a, st') := by
  unfold process_booking_request at h
  cases hsvc : (parse_booking_intent now msg).service with
  | none =>
    simp only [hsvc] at h
    simp only [Except.ok.injEq, Prod.mk.injEq] at h
    exact Or.inl h.2.symm
  | some svc =>
    simp only [hsvc] at h
    cases hav : find_available_slots st svc (parse_booking_intent now msg).date_preference with
    | nil =>
      simp only [hav, Except.ok.injEq, Prod.mk.injEq] at h
      exact Or.inl h.2.symm
    | cons slot rest =>
      simp only [hav] at h
      cases hc : create_appointment now st u svc slot with
      | error e => simp [hc] at h
      | ok pr =>
        obtain ⟨a, st1⟩ := pr
        simp only [hc] at h
        cases hl : services.lookup svc with
        | none => simp [hl] at h
        | some info =>
          simp only [hl, Except.ok.injEq, Prod.mk.injEq] at h
          refine Or.inr ⟨svc, slot, a, rfl, ?_, ?_⟩
          · rw [hav]; exact List.mem_cons_self _ _
          · rw [hc, h.2]

/-- The workflow never lets the `KeyError` escape: the parsed service is
always a catalog key, so `create_appointment` succeeds. -/
theorem process_no_exn (now : Nat) (st : AgentState) (u msg : String) (e : PyExn)
    (st' : AgentState) : process_booking_request now st u msg ≠ Except.error (e, st') := by
  intro h
  unfold process_booking_request at h
  cases hsvc : (parse_booking_intent now msg).service with
  | none => simp [hsvc] at h
  | some svc =>
    simp only [hsvc] at h
    obtain ⟨info, hl⟩ := parse_service_lookup now msg svc hsvc
    cases hav : find_available_slots st svc (parse_booking_intent now msg).date_preference with
    | nil => simp [hav] at h
    | cons slot rest =>
      simp only [hav] at h
      cases hc : create_appointment now st u svc slot with
      | error e' =>
        unfold create_appointment at hc
        rw [hl] at hc
        cases hc
      | ok pr =>
        obtain ⟨a, st1⟩ := pr
        simp [hc, hl] at h

theorem reachable_no_double_booking (now : Nat) (st : AgentState) (h : Reachable now st) :
    NoDoubleBooking st := by
  induction h with
  | start => exact List.Pairwise.nil
  | step_ok st st' u msg r _ hstep ih =>
    rcases process_ok_state hstep with rfl | ⟨svc, slot, a, hsvc, hslot, hc⟩
    · exact ih
    · obtain ⟨hts, hst, happ⟩ := create_appointment_ok_inv hc
      have hnb : is_slot_booked st slot = false :=
        (mem_candidate_slots.1 (mem_find_available_slots hslot)).2.1
      unfold NoDoubleBooking
      rw [happ]
      refine dictInsert_pairOk ih ?_
      intro p hp hpnc
      rw [hts]
      exact is_slot_booked_false_iff.1 hnb p hp hpnc
  | step_exn st st' u msg e _ hstep ih =>
    exact absurd hstep (process_no_exn now st u msg e st')

/-! ### Slot-generation lemmas -/

theorem if_some_eq {c : Prop} [Decidable c] {v s : Nat}
    (h : (if c then some v else none) = some s) : s = v ∧ c := by
  split at h
  · exact ⟨(Option.some.inj h).symm, by assumption⟩
  · cases h

theorem day_slots_props {now cur s : Nat} (h : s ∈ day_slots now cur) :
    dayOf s = dayOf cur ∧ 540 ≤ minuteOfDay s ∧ minuteOfDay s < 1020 ∧
      minuteOfDay s % 30 = 0 ∧ now + 60 < s := by
  unfold day_slots at h
  simp only [List.mem_flatMap, List.mem_filterMap, List.mem_range'] at h
  obtain ⟨hour, ⟨i, hi, rfl⟩, m, hm, hsome⟩ := h
  obtain ⟨rfl, hc⟩ := if_some_eq hsome
  have hm' : m = 0 ∨ m = 30 := by simpa using hm
  unfold dayOf minuteOfDay at *
  omega

theorem day_slots_pairwise (now cur : Nat) : (day_slots now cur).Pairwise (· < ·) := by
  unfold day_slots
  rw [List.pairwise_flatMap]
  constructor
  · intro hour hh
    rw [List.pairwise_filterMap]
    refine List.Pairwise.cons ?_ (List.Pairwise.cons (by simp) List.Pairwise.nil)
    intro m' hm' b hb b' hb'
    have hm'' : m' = 30 := by simpa using hm'
    obtain ⟨rfl, -⟩ := if_some_eq hb
    obtain ⟨rfl, -⟩ := if_some_eq hb'
    omega
  · refine (List.pairwise_lt_range' 9 8).imp ?_
    intro h1 h2 hlt x hx y hy
    simp only [List.mem_filterMap] at hx hy
    obtain ⟨m1, hm1, hx'⟩ := hx
    obtain ⟨m2, hm2, hy'⟩ := hy
    obtain ⟨rfl, -⟩ := if_some_eq hx'
    obtain ⟨rfl, -⟩ := if_some_eq hy'
    have hm1' : m1 = 0 ∨ m1 = 30 := by simpa using hm1
    have hm2' : m2 = 0 ∨ m2 = 30 := by simpa using hm2
    omega

theorem mem_raw_weekly_slots {now s : Nat} (h : s ∈ raw_weekly_slots now) :
    ∃ day < 7, weekday ((dayOf now * 1440 + 9 * 60) + day * 1440) < 5 ∧
      s ∈ day_slots now ((dayOf now * 1440 + 9 * 60) + day * 1440) := by
  unfold raw_weekly_slots at h
  simp only [List.mem_flatMap, List.mem_range] at h
  obtain ⟨day, hday, hmem⟩ := h
  refine ⟨day, hday, ?_⟩
  split at hmem
  · cases hmem
  · exact ⟨by omega, hmem⟩

theorem raw_weekly_slots_pairwise (now : Nat) : (raw_weekly_slots now).Pairwise (· < ·) := by
  unfold raw_weekly_slots
  rw [List.pairwise_flatMap]
  constructor
  · intro day hday
    simp only []
    split
    · exact List.Pairwise.nil
    · exact day_slots_pairwise now _
  · refine (List.pairwise_lt_range 7).imp ?_
    intro d1 d2 hlt x hx y hy
    simp only [] at hx hy
    split at hx
    · cases hx
    · split at hy
      · cases hy
      · obtain ⟨hdx, -, hmx, -, -⟩ := day_slots_props hx
        obtain ⟨hdy, hmy, -, -, -⟩ := day_slots_props hy
        unfold dayOf at hdx hdy
        unfold minuteOfDay at hmx hmy
        omega

theorem mem_generate_weekly_slots {now s : Nat} :
    s ∈ generate_weekly_slots now ↔ s ∈ raw_weekly_slots now :=
  (List.perm_insertionSort (· ≤ ·) (raw_weekly_slots now)).mem_iff

theorem generate_weekly_slots_sorted_lt (now : Nat) :
    List.Sorted (· < ·) (generate_weekly_slots now) := by
  have hraw := raw_weekly_slots_pairwise now
  have hs : List.Sorted (· ≤ ·) (generate_weekly_slots now) :=
    List.sorted_insertionSort (· ≤ ·) (raw_weekly_slots now)
  have hperm := List.perm_insertionSort (· ≤ ·) (raw_weekly_slots now)
  have hnd : (generate_weekly_slots now).Nodup :=
    hperm.nodup_iff.2 (hraw.imp (fun hlt => Nat.ne_of_lt hlt))
  exact (List.Pairwise.and hs hnd).imp (fun hab => lt_of_le_of_ne hab.1 hab.2)

/-! ### Workflow helper lemmas -/

theorem find_available_slots_eq {st : AgentState} {svc : String} {dp : Option Nat}
    {info : Service} (h : services.lookup svc = some info) :
    find_available_slots st svc dp =
      (List.insertionSort (· ≤ ·) (candidate_slots st dp)).take 6 := by
  unfold find_available_slots
  rw [h]

theorem find_available_slots_nil_iff {st : AgentState} {svc : String} {dp : Option Nat}
    {info : Service} (h : services.lookup svc = some info) :
    find_available_slots st svc dp = [] ↔ candidate_slots st dp = [] := by
  rw [find_available_slots_eq h]
  have hperm := List.perm_insertionSort (· ≤ ·) (candidate_slots st dp)
  constructor
  · intro htake
    have hlen := congrArg List.length htake
    rw [List.length_take, hperm.length_eq] at hlen
    simp only [List.length_nil] at hlen
    exact List.eq_nil_of_length_eq_zero (by omega)
  · intro h0
    rw [h0]
    rfl

/-- The head of the sorted candidate list is a minimal candidate. -/
theorem head_insertionSort_min {l : List Nat} {a : Nat} {t : List Nat}
    (h : List.insertionSort (· ≤ ·) l = a :: t) : a ∈ l ∧ ∀ c ∈ l, a ≤ c := by
  have hperm := List.perm_insertionSort (· ≤ ·) l
  have hsort := List.sorted_insertionSort (· ≤ ·) l
  rw [h] at hperm hsort
  refine ⟨hperm.mem_iff.1 (List.mem_cons_self a t), ?_⟩
  intro c hc
  rcases List.mem_cons.1 (hperm.mem_iff.2 hc) with rfl | hct
  · exact Nat.le_refl _
  · exact List.rel_of_sorted_cons hsort c hct

theorem create_appointment_isOk {now : Nat} {st : AgentState} {u svc : String} {slot : Nat}
    {info : Service} (h : services.lookup svc = some info) :
    ∃ a st', create_appointment now st u svc slot = Except.ok (a, st') := by
  unfold create_appointment
  rw [h]
  exact ⟨_, _, rfl⟩

theorem create_appointment_ok_fields {now : Nat} {st : AgentState} {u svc : String}
    {slot : Nat} {info : Service} {a : Appointment} {st' : AgentState}
    (hl : services.lookup svc = some info)
    (h : create_appointment now st u svc slot = Except.ok (a, st')) :
    a.duration = info.duration ∧ a.service = svc ∧ a.user_id = u := by
  unfold create_appointment at h
  rw [hl] at h
  simp only [Except.ok.injEq, Prod.mk.injEq] at h
  obtain ⟨rfl, -⟩ := h
  exact ⟨rfl, rfl, rfl⟩

theorem mem_dictInsert_self (k : String) (v : Appointment)
    (l : List (String × Appointment)) : (k, v) ∈ dictInsert k v l := by
  induction l with
  | nil => exact List.mem_cons_self _ _
  | cons p t ih =>
    unfold dictInsert
    split
    · exact List.mem_cons_self _ _
    · exact List.mem_cons_of_mem _ ih

theorem day_slots_mem_intro {now cur : Nat} (hour minute : Nat) (hh : 9 ≤ hour)
    (hh2 : hour < 17) (hm : minute = 0 ∨ minute = 30)
    (hgt : now + 60 < dayOf cur * 1440 + hour * 60 + minute) :
    dayOf cur * 1440 + hour * 60 + minute ∈ day_slots now cur := by
  unfold day_slots
  rw [List.mem_flatMap]
  refine ⟨hour, ?_, ?_⟩
  · rw [List.mem_range']
    exact ⟨hour - 9, by omega, by omega⟩
  · rw [List.mem_filterMap]
    refine ⟨minute, by rcases hm with rfl | rfl <;> simp, ?_⟩
    show (if now + 60 < dayOf cur * 1440 + hour * 60 + minute then
        some (dayOf cur * 1440 + hour * 60 + minute) else none) = _
    rw [if_pos hgt]

theorem raw_weekly_slots_mem_intro {now : Nat} (day : Nat) (hday : day < 7)
    (hwk : weekday ((dayOf now * 1440 + 9 * 60) + day * 1440) < 5)
    {s : Nat} (hs : s ∈ day_slots now ((dayOf now * 1440 + 9 * 60) + day * 1440)) :
    s ∈ raw_weekly_slots now := by
  unfold raw_weekly_slots
  rw [List.mem_flatMap]
  refine ⟨day, List.mem_range.2 hday, ?_⟩
  simp only []
  rw [if_neg (by omega)]
  exact hs

/-! ### Claim theorems -/

/-- C1: in every state reachable from a fresh agent through the public
booking operation `process_booking_request`, any two distinct stored
appointments whose status is not cancelled have different scheduled times. -/
theorem one_booking_per_slot (now : Nat) (st : AgentState) (h : Reachable now st) :
    NoDoubleBooking st :=
  reachable_no_double_booking now st h

/-- Witness for C1 at the concrete snapshot `now = 0` and the fresh agent. -/
theorem one_booking_per_slot_witness : NoDoubleBooking (BookingAgent.mkInit 0) :=
  one_booking_per_slot 0 (BookingAgent.mkInit 0) Reachable.start

/-- C3: every generated slot is on a weekday Monday to Friday, at a minute of
day in [540, 1020) (that is, [09:00, 17:00)) on the 30-minute grid, and
strictly later than now + 60 minutes; and the returned sequence is strictly
ascending, hence sorted with no duplicates. -/
theorem generate_weekly_slots_postcondition (now : Nat) :
    (∀ s ∈ generate_weekly_slots now,
        weekday s < 5 ∧ 540 ≤ minuteOfDay s ∧ minuteOfDay s < 1020 ∧
          minuteOfDay s % 30 = 0 ∧ now + 60 < s) ∧
    List.Sorted (· < ·) (generate_weekly_slots now) := by
  refine ⟨?_, generate_weekly_slots_sorted_lt now⟩
  intro s hs
  obtain ⟨day, hday, hw, hmem⟩ := mem_raw_weekly_slots (mem_generate_weekly_slots.1 hs)
  obtain ⟨hd, h1, h2, h3, h4⟩ := day_slots_props hmem
  refine ⟨?_, h1, h2, h3, h4⟩
  unfold weekday at hw ⊢
  rw [hd]
  exact hw

/-- Witness for C3 at `now = 0`: the slot 540 (Monday 09:00) is generated and
satisfies the postcondition. -/
theorem generate_weekly_slots_postcondition_witness :
    540 ∈ generate_weekly_slots 0 ∧
      (weekday 540 < 5 ∧ 540 ≤ minuteOfDay 540 ∧ minuteOfDay 540 < 1020 ∧
        minuteOfDay 540 % 30 = 0 ∧ 0 + 60 < 540) ∧
      List.Sorted (· < ·) (generate_weekly_slots 0) :=
  ⟨by decide, (generate_weekly_slots_postcondition 0).1 540 (by decide),
    (generate_weekly_slots_postcondition 0).2⟩

/-- C9: with the system clock replaced by a fixed snapshot, slot generation,
intent parsing, and request processing are deterministic: equal inputs and
equal prior state give equal results. -/
theorem booking_core_deterministic (now : Nat) (st1 st2 : AgentState)
    (u1 u2 m1 m2 : String) (hst : st1 = st2) (hu : u1 = u2) (hm : m1 = m2) :
    generate_weekly_slots now = generate_weekly_slots now ∧
    parse_booking_intent now m1 = parse_booking_intent now m2 ∧
    process_booking_request now st1 u1 m1 = process_booking_request now st2 u2 m2 := by
  subst hst
  subst hu
  subst hm
  exact ⟨rfl, rfl, rfl⟩

/-- Witness for C9 at concrete inputs. -/
theorem booking_core_deterministic_witness :
    generate_weekly_slots 0 = generate_weekly_slots 0 ∧
    parse_booking_intent 0 "dentist" = parse_booking_intent 0 "dentist" ∧
    process_booking_request 0 (BookingAgent.mkInit 0) "u" "dentist" =
      process_booking_request 0 (BookingAgent.mkInit 0) "u" "dentist" :=
  booking_core_deterministic 0 (BookingAgent.mkInit 0) (BookingAgent.mkInit 0)
    "u" "u" "dentist" "dentist" rfl rfl rfl

/-- C10: urgency is "high" exactly when one of the urgency character
sequences occurs anywhere in the lowercased text, and sentiment is
"positive" exactly when one of the politeness sequences occurs anywhere —
raw substring containment, not word matching. -/
theorem urgency_sentiment_substring (now : Nat) (msg : String) :
    ((parse_booking_intent now msg).urgency = "high" ↔
      ∃ w ∈ urgency_indicators, w.data <:+: (pyLower msg).data) ∧
    ((parse_booking_intent now msg).user_sentiment = "positive" ↔
      ∃ w ∈ positive_indicators, w.data <:+: (pyLower msg).data) := by
  constructor
  · rw [parse_urgency_eq]
    cases hany : urgency_indicators.any (fun w => containsStr (pyLower msg) w) with
    | true =>
      rw [List.any_eq_true] at hany
      obtain ⟨w, hw, hc⟩ := hany
      exact ⟨fun _ => ⟨w, hw, (containsStr_iff _ _).1 hc⟩, fun _ => rfl⟩
    | false =>
      constructor
      · intro hh
        exact absurd hh (by decide)
      · rintro ⟨w, hw, hinf⟩
        have h2 := List.any_eq_true.2 ⟨w, hw, (containsStr_iff _ _).2 hinf⟩
        rw [hany] at h2
        exact Bool.noConfusion h2
  · rw [parse_sentiment_eq]
    cases hany : positive_indicators.any (fun w => containsStr (pyLower msg) w) with
    | true =>
      rw [List.any_eq_true] at hany
      obtain ⟨w, hw, hc⟩ := hany
      exact ⟨fun _ => ⟨w, hw, (containsStr_iff _ _).1 hc⟩, fun _ => rfl⟩
    | false =>
      constructor
      · intro hh
        exact absurd hh (by decide)
      · rintro ⟨w, hw, hinf⟩
        have h2 := List.any_eq_true.2 ⟨w, hw, (containsStr_iff _ _).2 hinf⟩
        rw [hany] at h2
        exact Bool.noConfusion h2

/-- C2 counterexample: from a fresh agent at `now = 0`, `create_appointment`
books slot 540 for "dentist"; the slot is then occupied, yet a second direct
`create_appointment` for the very same slot also succeeds and the store ends
up with two non-cancelled appointments at slot 540 — no SlotConflict-style
failure exists in the code. -/
theorem create_appointment_double_books :
    ((create_appointment 0 (BookingAgent.mkInit 0) "u1" "dentist" 540).toOption.map
        (fun p => is_slot_booked p.2 540)) = some true ∧
    (((create_appointment 0 (BookingAgent.mkInit 0) "u1" "dentist" 540).toOption.bind
        (fun p => (create_appointment 0 p.2 "u2" "doctor" 540).toOption)).map
      (fun q =>
        ((q.2.appointments.map Prod.snd).filter
            (fun a => a.scheduled_time == 540 && a.status != BookingStatus.cancelled)).length)) =
      some 2 := by
  decide

/-- C2 amended: after `create(user, service, S)` succeeds, `isOccupied(S)` is
true; but a subsequent `create(anyUser, anyService, S)` for the same slot S
does not fail — `create_appointment` performs no occupancy check, succeeds
again, and stores a second appointment at slot S.  Only the workflow-level
availability filter prevents double booking. -/
theorem create_then_isOccupied_then_create_again (now : Nat) (st : AgentState)
    (u1 u2 svc1 svc2 : String) (slot : Nat) (i1 i2 : Service)
    (h1 : services.lookup svc1 = some i1) (h2 : services.lookup svc2 = some i2) :
    ∃ a1 st1 a2 st2,
      create_appointment now st u1 svc1 slot = Except.ok (a1, st1) ∧
      is_slot_booked st1 slot = true ∧
      create_appointment now st1 u2 svc2 slot = Except.ok (a2, st2) ∧
      a1.scheduled_time = slot ∧ a2.scheduled_time = slot ∧
      a1.status = BookingStatus.confirmed ∧ a2.status = BookingStatus.confirmed ∧
      st2.appointments = dictInsert a2.appointment_id a2 st1.appointments := by
  obtain ⟨a1, st1, hc1⟩ :=
    @create_appointment_isOk now st u1 svc1 slot i1 h1
  obtain ⟨a2, st2, hc2⟩ :=
    @create_appointment_isOk now st1 u2 svc2 slot i2 h2
  obtain ⟨hts1, hst1, happ1⟩ := create_appointment_ok_inv hc1
  obtain ⟨hts2, hst2, happ2⟩ := create_appointment_ok_inv hc2
  refine ⟨a1, st1, a2, st2, hc1, ?_, hc2, hts1, hts2, hst1, hst2, happ2⟩
  unfold is_slot_booked
  rw [List.any_eq_true]
  refine ⟨(a1.appointment_id, a1), ?_, ?_⟩
  · rw [happ1]
    exact mem_dictInsert_self _ _ _
  · simp [hts1, hst1]

/-- Witness for the amended C2 at concrete inputs. -/
theorem create_then_isOccupied_then_create_again_witness :
    ∃ a1 st1 a2 st2,
      create_appointment 0 (BookingAgent.mkInit 0) "u1" "dentist" 540 =
        Except.ok (a1, st1) ∧
      is_slot_booked st1 540 = true ∧
      create_appointment 0 st1 "u2" "doctor" 540 = Except.ok (a2, st2) ∧
      a1.scheduled_time = 540 ∧ a2.scheduled_time = 540 ∧
      a1.status = BookingStatus.confirmed ∧ a2.status = BookingStatus.confirmed ∧
      st2.appointments = dictInsert a2.appointment_id a2 st1.appointments :=
  create_then_isOccupied_then_create_again 0 (BookingAgent.mkInit 0) "u1" "u2"
    "dentist" "doctor" 540
    { duration := 45, price := 150, type := "medical" }
    { duration := 30, price := 100, type := "medical" }
    (by decide) (by decide)

/-- C8 counterexample: `create` for the unknown service "yoga" does not
return a structured UnknownService error result: the catalog subscript
raises `KeyError` (the exception escapes to the caller), nothing is stored,
and the id counter has already been incremented. -/
theorem create_unknown_service_keyError_concrete :
    create_appointment 0 (BookingAgent.mkInit 0) "dev ambekar" "yoga" 540 =
      Except.error (PyExn.keyError "yoga",
        { appointments := [], available_slots := generate_weekly_slots 0,
          next_appointment_id := 2 }) := by
  rfl

/-- C8 amended: for every service name outside the catalog, `create` raises
the `KeyError` of the dict subscript — an uncaught exception rather than an
explicit UnknownService error result — storing no appointment but leaving
the id counter incremented. -/
theorem create_unknown_service_keyError (now : Nat) (st : AgentState) (u svc : String)
    (slot : Nat) (h : services.lookup svc = none) :
    create_appointment now st u svc slot =
      Except.error (PyExn.keyError svc,
        { st with next_appointment_id := st.next_appointment_id + 1 }) := by
  unfold create_appointment
  rw [h]

/-- Witness for the amended C8 at concrete inputs. -/
theorem create_unknown_service_keyError_witness :
    create_appointment 3 (BookingAgent.mkInit 3) "u" "haircut" 600 =
      Except.error (PyExn.keyError "haircut",
        { BookingAgent.mkInit 3 with
            next_appointment_id := (BookingAgent.mkInit 3).next_appointment_id + 1 }) :=
  create_unknown_service_keyError 3 (BookingAgent.mkInit 3) "u" "haircut" 600 (by decide)

/-- A state with seven free slots, no appointments. -/
def sevenSlotState : AgentState :=
  { appointments := [], available_slots := [1, 2, 3, 4, 5, 6, 7],
    next_appointment_id := 1 }

/-- C5 counterexample: with seven unoccupied slots and no date preference,
`find_available_slots` returns only six of them — slot 7 is unoccupied and
in the input yet missing from the result, so the query does not return all
unoccupied input slots. -/
theorem find_available_slots_truncates :
    7 ∈ sevenSlotState.available_slots ∧
    is_slot_booked sevenSlotState 7 = false ∧
    find_available_slots sevenSlotState "doctor" none = [1, 2, 3, 4, 5, 6] ∧
    7 ∉ find_available_slots sevenSlotState "doctor" none := by
  decide

/-- C5 amended: for a catalog service and no date preference, the query
returns unoccupied input slots in ascending order, but truncated to the
first six: its length is `min 6` of the number of unoccupied slots, and only
when at most six slots are unoccupied does every unoccupied input slot
appear in the result. -/
theorem find_available_slots_contract (st : AgentState) (svc : String) (info : Service)
    (h : services.lookup svc = some info) :
    (∀ s ∈ find_available_slots st svc none,
        s ∈ st.available_slots ∧ is_slot_booked st s = false) ∧
    List.Sorted (· ≤ ·) (find_available_slots st svc none) ∧
    (find_available_slots st svc none).length = min 6 (candidate_slots st none).length ∧
    ((candidate_slots st none).length ≤ 6 →
      ∀ s ∈ st.available_slots, is_slot_booked st s = false →
        s ∈ find_available_slots st svc none) := by
  have hperm := List.perm_insertionSort (· ≤ ·) (candidate_slots st none)
  refine ⟨?_, ?_, ?_, ?_⟩
  · intro s hs
    have hc := mem_candidate_slots.1 (mem_find_available_slots hs)
    exact ⟨hc.1, hc.2.1⟩
  · rw [find_available_slots_eq h]
    exact List.Pairwise.sublist (List.take_sublist 6 _)
      (List.sorted_insertionSort (· ≤ ·) (candidate_slots st none))
  · rw [find_available_slots_eq h, List.length_take, hperm.length_eq]
  · intro hle s hs hnb
    rw [find_available_slots_eq h, List.take_of_length_le (by rw [hperm.length_eq]; exact hle)]
    rw [hperm.mem_iff]
    exact mem_candidate_slots.2 ⟨hs, hnb, rfl⟩

/-- Witness for the amended C5 on the seven-slot state. -/
theorem find_available_slots_contract_witness :
    (∀ s ∈ find_available_slots sevenSlotState "doctor" none,
        s ∈ sevenSlotState.available_slots ∧ is_slot_booked sevenSlotState s = false) ∧
    List.Sorted (· ≤ ·) (find_available_slots sevenSlotState "doctor" none) ∧
    (find_available_slots sevenSlotState "doctor" none).length =
      min 6 (candidate_slots sevenSlotState none).length ∧
    ((candidate_slots sevenSlotState none).length ≤ 6 →
      ∀ s ∈ sevenSlotState.available_slots, is_slot_booked sevenSlotState s = false →
        s ∈ find_available_slots sevenSlotState "doctor" none) :=
  find_available_slots_contract sevenSlotState "doctor"
    { duration := 30, price := 100, type := "medical" } (by decide)

/-- C6: the parser is a total function (the translation introduces no
partial operation, mirroring that the Python code can raise nothing), and on
input matching no service name, no time phrase, no date phrase, no urgency
word and no politeness word it returns the all-default intent: null service,
null time, null date, normal urgency, neutral sentiment. -/
theorem parse_booking_intent_defaults (now : Nat) (msg : String)
    (hs : ∀ p ∈ services, containsStr (pyLower msg) p.1 = false)
    (ht : ∀ p ∈ time_patterns, containsStr (pyLower msg) p.1 = false)
    (hd : ∀ p ∈ date_patterns now, containsStr (pyLower msg) p.1 = false)
    (hu : ∀ w ∈ urgency_indicators, containsStr (pyLower msg) w = false)
    (hp : ∀ w ∈ positive_indicators, containsStr (pyLower msg) w = false) :
    parse_booking_intent now msg =
      { service := none, preferred_time := none, date_preference := none,
        urgency := "normal", certainty := "high", user_sentiment := "neutral" } := by
  have hs2 : ∀ p ∈ services,
      ((pySplit p.1).any (fun w => containsStr (pyLower msg) w)) = false := by
    intro p hp'
    have h1 := hs p hp'
    simp only [services, List.mem_cons, List.not_mem_nil, or_false] at hp'
    rcases hp' with rfl | rfl | rfl | rfl | rfl | rfl
    · show (pySplit "doctor").any (fun w => containsStr (pyLower msg) w) = false
      rw [show pySplit "doctor" = ["doctor"] from rfl]
      simpa using h1
    · show (pySplit "dentist").any (fun w => containsStr (pyLower msg) w) = false
      rw [show pySplit "dentist" = ["dentist"] from rfl]
      simpa using h1
    · show (pySplit "therapy").any (fun w => containsStr (pyLower msg) w) = false
      rw [show pySplit "therapy" = ["therapy"] from rfl]
      simpa using h1
    · show (pySplit "consultation").any (fun w => containsStr (pyLower msg) w) = false
      rw [show pySplit "consultation" = ["consultation"] from rfl]
      simpa using h1
    · show (pySplit "massage").any (fun w => containsStr (pyLower msg) w) = false
      rw [show pySplit "massage" = ["massage"] from rfl]
      simpa using h1
    · show (pySplit "checkup").any (fun w => containsStr (pyLower msg) w) = false
      rw [show pySplit "checkup" = ["checkup"] from rfl]
      simpa using h1
  have hf : services.find? (fun p => containsStr (pyLower msg) p.1) = none :=
    List.find?_eq_none.2 (fun p hp' => by simp [hs p hp'])
  have hg : services.find?
      (fun p => (pySplit p.1).any (fun w => containsStr (pyLower msg) w)) = none :=
    List.find?_eq_none.2 (fun p hp' => by simp [hs2 p hp'])
  have hu' : urgency_indicators.any (fun w => containsStr (pyLower msg) w) = false :=
    List.any_eq_false.2 (fun w hw => by simp [hu w hw])
  have hp2 : positive_indicators.any (fun w => containsStr (pyLower msg) w) = false :=
    List.any_eq_false.2 (fun w hw => by simp [hp w hw])
  unfold parse_booking_intent
  simp only [hf, hg, hu', hp2]
  rw [foldl_date_nomatch _ _ _ hd, foldl_time_nomatch _ _ _ ht]
  simp

/-- Witness for C6 on the garbage input "qqq 123". -/
theorem parse_booking_intent_defaults_witness :
    (∀ p ∈ services, containsStr (pyLower "qqq 123") p.1 = false) ∧
    (∀ p ∈ time_patterns, containsStr (pyLower "qqq 123") p.1 = false) ∧
    (∀ p ∈ date_patterns 7, containsStr (pyLower "qqq 123") p.1 = false) ∧
    (∀ w ∈ urgency_indicators, containsStr (pyLower "qqq 123") w = false) ∧
    (∀ w ∈ positive_indicators, containsStr (pyLower "qqq 123") w = false) ∧
    parse_booking_intent 7 "qqq 123" =
      { service := none, preferred_time := none, date_preference := none,
        urgency := "normal", certainty := "high", user_sentiment := "neutral" } :=
  ⟨by decide, by decide, by decide, by decide, by decide,
    parse_booking_intent_defaults 7 "qqq 123" (by decide) (by decide) (by decide)
      (by decide) (by decide)⟩

/-- C4: `process_booking_request` returns the clarification response exactly
when the parsed intent has no service; otherwise it returns the no-slots
response exactly when the unoccupied cached slots, additionally filtered by
the date preference when one is present, are empty; otherwise it books an
earliest candidate slot (the head of the ascending-sorted candidate list)
via `create_appointment` and returns the success response carrying that
appointment and the catalog price and category. -/
theorem process_booking_request_outcomes (now : Nat) (st : AgentState) (u msg : String) :
    (statusOf (process_booking_request now st u msg) = "clarification_needed" ↔
      (parse_booking_intent now msg).service = none) ∧
    (statusOf (process_booking_request now st u msg) = "no_slots" ↔
      ∃ svc, (parse_booking_intent now msg).service = some svc ∧
        candidate_slots st (parse_booking_intent now msg).date_preference = []) ∧
    (∀ svc, (parse_booking_intent now msg).service = some svc →
      candidate_slots st (parse_booking_intent now msg).date_preference ≠ [] →
      ∃ slot a st' info,
        slot ∈ candidate_slots st (parse_booking_intent now msg).date_preference ∧
        (∀ c ∈ candidate_slots st (parse_booking_intent now msg).date_preference,
          slot ≤ c) ∧
        create_appointment now st u svc slot = Except.ok (a, st') ∧
        a.scheduled_time = slot ∧ a.user_id = u ∧ a.service = svc ∧
        services.lookup svc = some info ∧
        process_booking_request now st u msg =
          Except.ok (BookingResponse.success a info.price info.type, st')) := by
  cases hsvc : (parse_booking_intent now msg).service with
  | none =>
    have hpr : process_booking_request now st u msg =
        Except.ok (BookingResponse.clarification_needed
          "I understand you want to book an appointment. Which service are you interested in?"
          service_names
          ["doctor", "dentist", "therapy", "massage", "consultation"], st) := by
      unfold process_booking_request
      simp only [hsvc]
    rw [hpr]
    refine ⟨⟨fun _ => rfl, fun _ => rfl⟩, ⟨fun hco => by simp [statusOf] at hco, ?_⟩, ?_⟩
    · rintro ⟨svc, hsvc', -⟩
      exact Option.noConfusion hsvc'
    · intro svc hsvc' _
      exact Option.noConfusion hsvc'
  | some svc0 =>
    obtain ⟨info, hl⟩ := parse_service_lookup now msg svc0 hsvc
    cases hcand : candidate_slots st (parse_booking_intent now msg).date_preference with
    | nil =>
      have hfind : find_available_slots st svc0
          (parse_booking_intent now msg).date_preference = [] :=
        (find_available_slots_nil_iff hl).2 hcand
      have hpr : process_booking_request now st u msg =
          Except.ok (BookingResponse.no_slots
            ("Sorry, no available slots found for " ++ svc0 ++ " appointments.")
            "Please try a different date or service type."
            (service_names.filter (fun s => !(s == svc0))), st) := by
        unfold process_booking_request
        simp only [hsvc, hfind]
      rw [hpr]
      refine ⟨⟨fun hco => by simp [statusOf] at hco, fun hno => Option.noConfusion hno⟩,
        ⟨fun _ => ⟨svc0, rfl, rfl⟩, fun _ => rfl⟩, ?_⟩
      intro svc' hsvc' hne
      exact absurd rfl hne
    | cons c0 ct =>
      cases hsort : List.insertionSort (· ≤ ·) (c0 :: ct) with
      | nil =>
        exfalso
        have hlen := (List.perm_insertionSort (· ≤ ·) (c0 :: ct)).length_eq
        rw [hsort] at hlen
        simp at hlen
      | cons s0 stail =>
        have hfind : find_available_slots st svc0
            (parse_booking_intent now msg).date_preference = s0 :: stail.take 5 := by
          rw [find_available_slots_eq hl, hcand, hsort]
          rfl
        obtain ⟨a, st', hc⟩ :=
          @create_appointment_isOk now st u svc0 s0 info hl
        have hmin := head_insertionSort_min hsort
        have hpr : process_booking_request now st u msg =
            Except.ok (BookingResponse.success a info.price info.type, st') := by
          unfold process_booking_request
          simp only [hsvc, hfind, hc, hl]
        rw [hpr]
        obtain ⟨hdur, hserv, huid⟩ := create_appointment_ok_fields hl hc
        obtain ⟨hts, hstt, happ⟩ := create_appointment_ok_inv hc
        refine ⟨⟨fun hco => by simp [statusOf] at hco, fun hno => Option.noConfusion hno⟩,
          ⟨fun hno => by simp [statusOf] at hno, ?_⟩, ?_⟩
        · rintro ⟨svc', hsvc', hcand'⟩
          exact List.noConfusion hcand'
        · intro svc' hsvc' hne
          obtain rfl : svc0 = svc' := Option.some.inj hsvc'
          exact ⟨s0, a, st', info, hmin.1, hmin.2, hc, hts, huid, hserv, hl, rfl⟩

/-- Witness for C4: the text "massage" books the earliest unoccupied slot of
the fresh Monday agent. -/
theorem process_booking_request_outcomes_witness :
    ∃ slot a st' info,
      slot ∈ candidate_slots (BookingAgent.mkInit 0)
          (parse_booking_intent 0 "massage").date_preference ∧
      (∀ c ∈ candidate_slots (BookingAgent.mkInit 0)
          (parse_booking_intent 0 "massage").date_preference, slot ≤ c) ∧
      create_appointment 0 (BookingAgent.mkInit 0) "u" "massage" slot =
        Except.ok (a, st') ∧
      a.scheduled_time = slot ∧ a.user_id = "u" ∧ a.service = "massage" ∧
      services.lookup "massage" = some info ∧
      process_booking_request 0 (BookingAgent.mkInit 0) "u" "massage" =
        Except.ok (BookingResponse.success a info.price info.type, st') :=
  (process_booking_request_outcomes 0 (BookingAgent.mkInit 0) "u" "massage").2.2
    "massage" (by decide) (by decide)

/-- C7 counterexample: at the snapshot 6360 (a Friday, 10:00), the same text
parses to the same intent shape, but "tomorrow" is Saturday; the date filter
leaves no candidate and the workflow answers no_slots, not Booked. -/
theorem dentist_tomorrow_afternoon_friday_no_slots :
    weekday 6360 = 4 ∧
    statusOf (process_booking_request 6360 (BookingAgent.mkInit 6360) "dev ambekar"
        "I need a dentist appointment tomorrow afternoon") = "no_slots" := by
  decide

/-- C7 amended: whenever tomorrow is a weekday (Monday to Friday), the text
"I need a dentist appointment tomorrow afternoon" parses to the intent
{service dentist, time 12:00-17:00, date tomorrow, urgency normal, sentiment
neutral} and the fresh-agent workflow returns the success (Booked) response
with price 150 and a dentist appointment of duration 45.  (When tomorrow
falls on a weekend the workflow instead returns no_slots.) -/
theorem dentist_tomorrow_afternoon_scenario (now : Nat) (h : weekday (now + 1440) < 5) :
    parse_booking_intent now "I need a dentist appointment tomorrow afternoon" =
      { service := some "dentist", preferred_time := some "12:00-17:00",
        date_preference := some (dayOf now + 1), urgency := "normal",
        certainty := "high", user_sentiment := "neutral" } ∧
    ∃ a st',
      process_booking_request now (BookingAgent.mkInit now) "dev ambekar"
          "I need a dentist appointment tomorrow afternoon" =
        Except.ok (BookingResponse.success a 150 "medical", st') ∧
      a.duration = 45 ∧ a.service = "dentist" := by
  have hday1 : dayOf (now + 1440) = dayOf now + 1 := by
    unfold dayOf
    omega
  have hparse : parse_booking_intent now "I need a dentist appointment tomorrow afternoon" =
      { service := some "dentist", preferred_time := some "12:00-17:00",
        date_preference := some (dayOf (now + 1440)), urgency := "normal",
        certainty := "high", user_sentiment := "neutral" } := by
    rfl
  refine ⟨by rw [hparse, hday1], ?_⟩
  have hwk : weekday ((dayOf now * 1440 + 9 * 60) + 1 * 1440) < 5 := by
    unfold weekday dayOf at h ⊢
    omega
  have hgt : now + 60 <
      dayOf ((dayOf now * 1440 + 9 * 60) + 1 * 1440) * 1440 + 9 * 60 + 0 := by
    unfold dayOf
    omega
  have hmem_day := @day_slots_mem_intro now ((dayOf now * 1440 + 9 * 60) + 1 * 1440)
    9 0 (by omega) (by omega) (Or.inl rfl) hgt
  have hmem_raw := raw_weekly_slots_mem_intro 1 (by omega) hwk hmem_day
  have hmem_gen := mem_generate_weekly_slots.2 hmem_raw
  have hdm : dateMatches (some (dayOf (now + 1440)))
      (dayOf ((dayOf now * 1440 + 9 * 60) + 1 * 1440) * 1440 + 9 * 60 + 0) = true := by
    simp only [dateMatches, beq_iff_eq]
    unfold dayOf
    omega
  have hmem_cand : dayOf ((dayOf now * 1440 + 9 * 60) + 1 * 1440) * 1440 + 9 * 60 + 0 ∈
      candidate_slots (BookingAgent.mkInit now) (some (dayOf (now + 1440))) :=
    mem_candidate_slots.2 ⟨hmem_gen, rfl, hdm⟩
  have hcand_ne : candidate_slots (BookingAgent.mkInit now)
      (some (dayOf (now + 1440))) ≠ [] := by
    intro h0
    rw [h0] at hmem_cand
    exact List.not_mem_nil _ hmem_cand
  have hl : services.lookup "dentist" =
      some { duration := 45, price := 150, type := "medical" } := rfl
  have hfind_ne : find_available_slots (BookingAgent.mkInit now) "dentist"
      (some (dayOf (now + 1440))) ≠ [] := fun h0 =>
    hcand_ne ((find_available_slots_nil_iff hl).1 h0)
  cases hfind : find_available_slots (BookingAgent.mkInit now) "dentist"
      (some (dayOf (now + 1440))) with
  | nil => exact absurd hfind hfind_ne
  | cons slot rest =>
    obtain ⟨a, st', hc⟩ := @create_appointment_isOk now (BookingAgent.mkInit now)
      "dev ambekar" "dentist" slot { duration := 45, price := 150, type := "medical" } hl
    obtain ⟨hdur, hserv, -⟩ := create_appointment_ok_fields hl hc
    refine ⟨a, st', ?_, hdur, hserv⟩
    unfold process_booking_request
    simp only [hparse, hfind, hc, hl]

/-- Witness for the amended C7 at `now = 0` (a Monday, so tomorrow is Tuesday). -/
theorem dentist_tomorrow_afternoon_scenario_witness :
    weekday (0 + 1440) < 5 ∧
    (parse_booking_intent 0 "I need a dentist appointment tomorrow afternoon" =
      { service := some "dentist", preferred_time := some "12:00-17:00",
        date_preference := some (dayOf 0 + 1), urgency := "normal",
        certainty := "high", user_sentiment := "neutral" } ∧
    ∃ a st',
      process_booking_request 0 (BookingAgent.mkInit 0) "dev ambekar"
          "I need a dentist appointment tomorrow afternoon" =
        Except.ok (BookingResponse.success a 150 "medical", st') ∧
      a.duration = 45 ∧ a.service = "dentist") :=
  ⟨by decide, dentist_tomorrow_afternoon_scenario 0 (by decide)⟩

/-- Witness for C10 on the input "monsoon", whose lowercasing contains the
sequence "soon" inside a longer word. -/
theorem urgency_sentiment_substring_witness :
    ((parse_booking_intent 0 "monsoon").urgency = "high" ↔
      ∃ w ∈ urgency_indicators, w.data <:+: (pyLower "monsoon").data) ∧
    ((parse_booking_intent 0 "monsoon").user_sentiment = "positive" ↔
      ∃ w ∈ positive_indicators, w.data <:+: (pyLower "monsoon").data) :=
  urgency_sentiment_substring 0 "monsoon"
